import Mathlib

/-!
Verification development for the DocAgentLine document-extraction pipeline.

Shallow embedding of the core components, translated from the Python
source:
  * `docagentline/utils/errors.py` — error taxonomy, `is_retryable`,
    `classify_error`;
  * `docagentline/pipeline/engine.py` — `PipelineEngine`
    (`execute_pipeline`, `_is_stage_completed`,
    `_execute_stage_with_retry`, run/metric records, backoff);
  * `docagentline/pipeline/stages/chunking.py` —
    `ChunkingStage._create_chunks`;
  * `docagentline/services/llm/openai_provider.py` —
    `OpenAIProvider.generate_structured`;
  * `docagentline/app/api/routes/documents.py` — `submit_document`.

Conventions: Python strings are `List Char`, byte strings are `List Nat`.
External libraries (the tiktoken tokenizer, `hashlib` SHA-256,
`json.loads`) are abstracted as function parameters; everything else is
translated statement by statement from the source.
-/

namespace DocAgentLine

/-! ## Error taxonomy (`docagentline/utils/errors.py`)

Each exception class of the taxonomy becomes one constructor; `other`
stands for any exception that is not an instance of one of the eleven
named taxonomy classes (e.g. a plain `KeyError` or `ValueError`, or the
bare `DocAgentLineError` base). -/

inductive ErrKind where
  | transientExt
  | modelOutput
  | schemaValidation
  | pipelineState
  | storage
  | configuration
  | schemaRegistry
  | ingestion
  | extraction
  | chunkingErr
  | embedding
  | other
deriving DecidableEq, Repr

/-- A raised Python exception: its class (kind) and its `str(e)` text. -/
structure PyExc where
  kind : ErrKind
  msg : List Char
deriving DecidableEq, Repr

/-- `is_retryable` (errors.py line 84): `isinstance(error, TransientExternalError)`. -/
def is_retryable (e : PyExc) : Bool :=
  e.kind = ErrKind.transientExt

/-- `classify_error` (errors.py lines 89-114): the ordered `isinstance`
cascade mapping an exception to its snake_case kind string. -/
def classify_error (e : PyExc) : List Char :=
  match e.kind with
  | .transientExt => "transient_external".data
  | .modelOutput => "model_output".data
  | .schemaValidation => "schema_validation".data
  | .pipelineState => "pipeline_state".data
  | .storage => "storage".data
  | .configuration => "configuration".data
  | .schemaRegistry => "schema_registry".data
  | .ingestion => "ingestion".data
  | .extraction => "extraction".data
  | .chunkingErr => "chunking".data
  | .embedding => "embedding".data
  | .other => "unknown".data

/-! ## Backoff (`engine.py` lines 225-232)

`backoff = min(self.backoff_base ** (attempt - 1), self.backoff_max)`;
with jitter, `backoff = backoff * (0.5 + random.random())` where
`random.random()` is a uniform sample from `[0, 1)`.  Floats are
modelled as rationals; the jitter sample is an explicit parameter. -/

def computeBackoff (base maxB : ℚ) (attempt : Nat) (jitter : Bool) (u : ℚ) : ℚ :=
  let b := min (base ^ (attempt - 1)) maxB
  if jitter then b * (1/2 + u) else b

/-! ## Data model (`docagentline/db`, the tables the engine touches)

`pipeline_runs`, `metrics`, `documents` carry the columns the engine
reads or writes; timestamps are omitted (wall-clock time is not
embedded).  Stage-specific output tables (chunks, embeddings,
extractions, …) are collapsed into an opaque list of `OutRow`s, since
the engine never inspects them. -/

structure RunRow where
  id : Nat
  documentId : Nat
  stage : List Char
  status : List Char
  attempt : Nat
  errType : Option (List Char)
  errMsg : Option (List Char)
  correlationId : Option (List Char)
deriving DecidableEq, Repr

structure MetRow where
  runId : Nat
  stage : List Char
deriving DecidableEq, Repr

structure DocRow where
  id : Nat
  source : List Char
  contentHash : List Char
  schemaVersion : List Char
  status : List Char
  fileSizeBytes : Nat
deriving DecidableEq, Repr

structure RawRow where
  documentId : Nat
  content : List Nat
deriving DecidableEq, Repr

/-- One row of a stage-output table (chunks, extractions, …), opaque to
the engine. -/
structure OutRow where
  stage : List Char
  documentId : Nat
  payload : List Char
deriving DecidableEq, Repr

/-- The part of the store that stages read and write: `documents`,
`raw_content` and the stage-output tables.  Stages never touch
`pipeline_runs` or `metrics`. -/
structure SideDB where
  docs : List DocRow
  raws : List RawRow
  outs : List OutRow
  nextDocId : Nat
deriving DecidableEq, Repr

/-- The whole store.  `nextRunId` models the autoincrement key of
`pipeline_runs`. -/
structure DB where
  runs : List RunRow
  mets : List MetRow
  nextRunId : Nat
  side : SideDB
deriving DecidableEq, Repr

/-- A stage implementation: `execute(document_id)` as observed on
attempt `a`, acting on the stage-visible store and either returning
normally or raising. -/
def StageModel : Type :=
  Nat → SideDB → SideDB × Option PyExc

/-! ## Pipeline engine (`docagentline/pipeline/engine.py`)

The engine's observable actions are recorded as an event trace:
`invoked stage attempt` whenever `stage.execute(document_id)` is
called, `slept s` for each inter-attempt backoff sleep, and
`docWrite d s` for each write of `documents.status` performed by the
engine itself (stages' own status writes live inside their
`StageModel`). -/

inductive Event where
  | invoked (stage : List Char) (attempt : Nat)
  | slept (seconds : ℚ)
  | docWrite (documentId : Nat) (status : List Char)
deriving DecidableEq, Repr

structure EngineCfg where
  maxRetries : Nat
  backoffBase : ℚ
  backoffMax : ℚ
  useJitter : Bool
deriving Repr

/-- `_is_stage_completed`: a `pipeline_runs` row with this document,
stage and status `completed` exists. -/
def isStageCompleted (db : DB) (documentId : Nat) (stageName : List Char) : Bool :=
  db.runs.any fun r =>
    r.documentId = documentId ∧ r.stage = stageName ∧ r.status = "completed".data

/-- `_create_run_record`: insert a `running` row, return its id. -/
def createRunRecord (db : DB) (documentId : Nat) (stageName : List Char)
    (attempt : Nat) (correlationId : Option (List Char)) : DB × Nat :=
  ({ db with
       runs := db.runs ++ [{ id := db.nextRunId, documentId := documentId,
                             stage := stageName, status := "running".data,
                             attempt := attempt, errType := none, errMsg := none,
                             correlationId := correlationId }],
       nextRunId := db.nextRunId + 1 },
   db.nextRunId)

/-- `_get_run_stage`: stage name of the run row, `"unknown"` if absent. -/
def getRunStage (db : DB) (runId : Nat) : List Char :=
  match db.runs.find? fun r => r.id = runId with
  | some r => r.stage
  | none => "unknown".data

/-- `_complete_run_record`: set the run to `completed` and insert its
metric row. -/
def completeRunRecord (db : DB) (runId : Nat) : DB :=
  let db' := { db with
               runs := db.runs.map (fun (r : RunRow) =>
                 if r.id = runId then { r with status := "completed".data } else r) }
  { db' with mets := db'.mets ++ [{ runId := runId, stage := getRunStage db' runId }] }

/-- `_fail_run_record`: set the run to `failed` with the classified
error type and the message truncated to 1000 characters, and insert its
metric row. -/
def failRunRecord (db : DB) (runId : Nat) (errType errMsg : List Char) : DB :=
  let db' := { db with
               runs := db.runs.map (fun (r : RunRow) =>
                 if r.id = runId then
                   { r with status := "failed".data, errType := some errType,
                            errMsg := some (errMsg.take 1000) }
                 else r) }
  { db' with mets := db'.mets ++ [{ runId := runId, stage := getRunStage db' runId }] }

/-- The final `update(documents).values(status="completed")` of
`execute_pipeline` (and, in general, a write of `documents.status`). -/
def setDocStatus (sd : SideDB) (documentId : Nat) (status : List Char) : SideDB :=
  { sd with docs := sd.docs.map (fun d =>
      if d.id = documentId then { d with status := status } else d) }

/-- The `while attempt <= self.max_retries + 1` loop of
`_execute_stage_with_retry`, entered at a given attempt number.
`rand a` is the `random.random()` sample drawn before the sleep that
follows attempt `a`.  Returns the store, the event trace, and `none`
for `return "completed"` or `some e` for a re-raised exception
(`PipelineStateError` for the unreachable loop exit). -/
def retryLoop (cfg : EngineCfg) (documentId : Nat) (stageName : List Char)
    (stage : StageModel) (correlationId : Option (List Char)) (rand : Nat → ℚ)
    (attempt : Nat) (db : DB) : DB × List Event × Option PyExc :=
  if _h : attempt ≤ cfg.maxRetries + 1 then
    let (db1, runId) := createRunRecord db documentId stageName attempt correlationId
    let (sd2, res) := stage attempt db1.side
    let db2 := { db1 with side := sd2 }
    match res with
    | none =>
        (completeRunRecord db2 runId, [Event.invoked stageName attempt], none)
    | some e =>
        let db3 := failRunRecord db2 runId (classify_error e) e.msg
        if is_retryable e then
          if attempt > cfg.maxRetries then
            (db3, [Event.invoked stageName attempt], some e)
          else
            let b := computeBackoff cfg.backoffBase cfg.backoffMax attempt
              cfg.useJitter (rand attempt)
            let (db4, evs, r) :=
              retryLoop cfg documentId stageName stage correlationId rand (attempt + 1) db3
            (db4, Event.invoked stageName attempt :: Event.slept b :: evs, r)
        else
          (db3, [Event.invoked stageName attempt], some e)
  else
    (db, [], some { kind := ErrKind.pipelineState, msg := "Unexpected retry loop exit".data })
termination_by cfg.maxRetries + 2 - attempt
decreasing_by omega

/-- `_execute_stage_with_retry`: the loop starting at `attempt = 1`. -/
def executeStageWithRetry (cfg : EngineCfg) (documentId : Nat)
    (stageName : List Char) (stage : StageModel)
    (correlationId : Option (List Char)) (rand : Nat → ℚ) (db : DB) :
    DB × List Event × Option PyExc :=
  retryLoop cfg documentId stageName stage correlationId rand 1 db

/-- The `for stage_name in stages` loop of `execute_pipeline`: skip a
stage with an existing completed run, otherwise run it with retry; an
exception aborts the loop.  Returns the store, the `results` map (as an
ordered association list), the event trace, and the propagated
exception if any. -/
def runStages (cfg : EngineCfg) (documentId : Nat)
    (correlationId : Option (List Char)) (rand : Nat → ℚ) :
    List (List Char × StageModel) → DB →
    DB × List (List Char × List Char) × List Event × Option PyExc
  | [], db => (db, [], [], none)
  | (stageName, stage) :: rest, db =>
    if isStageCompleted db documentId stageName then
      let (db', res, evs, err) := runStages cfg documentId correlationId rand rest db
      (db', (stageName, "skipped".data) :: res, evs, err)
    else
      match executeStageWithRetry cfg documentId stageName stage correlationId rand db with
      | (db1, evs1, none) =>
        let (db2, res, evs2, err) := runStages cfg documentId correlationId rand rest db1
        (db2, (stageName, "completed".data) :: res, evs1 ++ evs2, err)
      | (db1, evs1, some e) => (db1, [], evs1, some e)

/-- `execute_pipeline`: run all stages in order; if none raised, set
`documents.status = "completed"` (recorded as a `docWrite` event) and
return the results. -/
def executePipeline (cfg : EngineCfg) (documentId : Nat)
    (correlationId : Option (List Char)) (rand : Nat → ℚ)
    (stages : List (List Char × StageModel)) (db : DB) :
    DB × List (List Char × List Char) × List Event × Option PyExc :=
  match runStages cfg documentId correlationId rand stages db with
  | (db1, res, evs, none) =>
    ({ db1 with side := setDocStatus db1.side documentId "completed".data },
     res, evs ++ [Event.docWrite documentId "completed".data], none)
  | (db1, res, evs, some e) => (db1, res, evs, some e)

/-! ## Chunking (`docagentline/pipeline/stages/chunking.py`)

`_create_chunks` works on Python strings; here text is `List Char`.
The token counter (`_count_tokens`, backed by the external tiktoken
library or the word-count approximation) is abstracted as a parameter
`tok : List Char → Nat`. -/

/-- Python's `\s` / `str.strip()` whitespace class (ASCII part):
space, `\t`, `\n`, `\r`, `\v` (0x0B), `\f` (0x0C). -/
def pyIsSpace (c : Char) : Bool :=
  c = ' ' ∨ c = '\t' ∨ c = '\n' ∨ c = '\r' ∨ c = Char.ofNat 11 ∨ c = Char.ofNat 12

/-- Python `str.strip()`: drop whitespace from both ends. -/
def pyStrip (cs : List Char) : List Char :=
  ((cs.dropWhile pyIsSpace).reverse.dropWhile pyIsSpace).reverse

/-- Length of the maximal whitespace run at the head. -/
def wsPrefixLen (cs : List Char) : Nat :=
  (cs.takeWhile pyIsSpace).length

/-- Largest index `p < m` with `cs[p] = '\n'`, scanning downward. -/
def lastNlBelow (cs : List Char) : Nat → Option Nat
  | 0 => none
  | m + 1 => if cs.get? m = some '\n' then some m else lastNlBelow cs m

/-- Greedy match of the tail of the separator regex `\n\s*\n` against
`cs`, the characters following an initial `'\n'`: `\s*` backtracks from
the maximal whitespace run until the next character is `'\n'`, so the
match ends at the last newline inside that run.  Returns the index `p`
of that final newline in `cs`, or `none` when the regex does not match
here. -/
def sepTail (cs : List Char) : Option Nat :=
  lastNlBelow cs (wsPrefixLen cs)

/-- `re.split(r"\n\s*\n", text)`: scan left to right, splitting at each
(leftmost, greedy) separator match.  `acc` holds the characters of the
current piece in reverse. -/
def paraSplit : List Char → List Char → List (List Char)
  | [], acc => [acc.reverse]
  | c :: rest, acc =>
    if c = '\n' then
      match sepTail rest with
      | some p => acc.reverse :: paraSplit (rest.drop (p + 1)) []
      | none => paraSplit rest (c :: acc)
    else
      paraSplit rest (c :: acc)
termination_by cs _ => cs.length
decreasing_by
  · simp only [List.length_drop, List.length_cons]; omega
  · simp [List.length_cons]
  · simp [List.length_cons]

/-- `(chunk_size, chunk_overlap, min_chunk_size)` from settings:
`CHUNK_SIZE`, `CHUNK_OVERLAP`, `CHUNK_MIN_SIZE`. -/
structure ChunkCfg where
  chunkSize : Nat
  chunkOverlap : Nat
  minChunkSize : Nat
deriving Repr

/-- The loop state of `_create_chunks`: emitted chunks, the paragraphs
of the current chunk, and `current_size` in tokens. -/
structure ChunkState where
  chunks : List (List Char)
  current : List (List Char)
  size : Nat
deriving DecidableEq, Repr

/-- The paragraph separator `"\n\n"` used by `"\n\n".join(...)`. -/
def nl2 : List Char := ['\n', '\n']

/-- The flush inside the loop (chunking.py lines 117-129): emit the
current chunk if it has at least `min_chunk_size` characters, then
start the next chunk — seeded with the last paragraph when
`chunk_overlap > 0`, empty otherwise. -/
def flushStep (cfg : ChunkCfg) (tok : List Char → Nat) (st : ChunkState) : ChunkState :=
  let chunkText := List.intercalate nl2 st.current
  let chunks' :=
    if cfg.minChunkSize ≤ chunkText.length then st.chunks ++ [chunkText] else st.chunks
  if 0 < cfg.chunkOverlap then
    match st.current.getLast? with
    | some lastPara => { chunks := chunks', current := [lastPara], size := tok lastPara }
    | none => { chunks := chunks', current := [], size := 0 }
  else
    { chunks := chunks', current := [], size := 0 }

/-- One iteration of `for para in paragraphs` (chunking.py lines
109-132): strip, skip empties, flush when the paragraph would overflow
`chunk_size` and the current chunk is non-empty, then append the
paragraph. -/
def processPara (cfg : ChunkCfg) (tok : List Char → Nat) (st : ChunkState)
    (para0 : List Char) : ChunkState :=
  let para := pyStrip para0
  if para = [] then st
  else
    let paraTokens := tok para
    let st1 :=
      if cfg.chunkSize < st.size + paraTokens ∧ st.current ≠ [] then
        flushStep cfg tok st
      else st
    { st1 with current := st1.current ++ [para], size := st1.size + paraTokens }

/-- The greedy accumulation of `_create_chunks` (everything before the
fallback): split into paragraphs, fold the loop, then flush the final
remainder subject to `min_chunk_size`. -/
def greedyChunks (cfg : ChunkCfg) (tok : List Char → Nat) (text : List Char) :
    List (List Char) :=
  let paragraphs := paraSplit text []
  let st := paragraphs.foldl (processPara cfg tok) ⟨[], [], 0⟩
  if st.current ≠ [] then
    let chunkText := List.intercalate nl2 st.current
    if cfg.minChunkSize ≤ chunkText.length then st.chunks ++ [chunkText] else st.chunks
  else st.chunks

/-- `_create_chunks` (chunking.py lines 97-140): empty text gives `[]`;
otherwise the greedy chunks, falling back to the single chunk
`text[:chunk_size]` when none were produced. -/
def createChunks (cfg : ChunkCfg) (tok : List Char → Nat) (text : List Char) :
    List (List Char) :=
  if text = [] then []
  else
    let cs := greedyChunks cfg tok text
    if cs = [] then [text.take cfg.chunkSize] else cs

/-! ## Model-service client (`docagentline/services/llm/openai_provider.py`)

`OpenAIProvider.generate_structured` is driven by the outcome of the
single HTTP POST.  The response body is modelled by what the code reads
from it: whether `response.json()` parses, whether
`data["choices"][0]["message"]["content"]` is present, and the
optional `usage.prompt_tokens` / `usage.completion_tokens` counts.
`json.loads` on the generated content is abstracted as a parameter
`jsonParse`. -/

/-- What `generate_structured` reads out of a parsed response body. -/
structure BodyData where
  content : Option (List Char)
  promptTokens : Option Nat
  completionTokens : Option Nat
deriving DecidableEq, Repr

structure HttpResponse where
  status : Nat
  bodyJson : Option BodyData
deriving DecidableEq, Repr

/-- The outcome of the HTTP POST: a response, or a raised
`httpx.TimeoutException` / `httpx.NetworkError`. -/
inductive HttpOutcome where
  | response (r : HttpResponse)
  | timeoutExc
  | networkExc
deriving DecidableEq, Repr

/-- How a `generate_structured` call ends: a returned `LLMResponse`
(the fields the claims mention), a raised taxonomy error, or a
non-taxonomy exception propagating out (e.g. `json.JSONDecodeError`
from `response.json()`, or `KeyError` on a missing field). -/
inductive GenResult (α : Type) where
  | ok (rawResponse : List Char) (parsed : α) (tokensIn tokensOut : Nat)
  | raised (e : PyExc)
  | uncaught (excName : List Char)
deriving DecidableEq, Repr

/-- The markdown-fence stripping of openai_provider.py lines 102-109:
strip, drop a leading ```` ```json ````, drop a leading ```` ``` ````,
drop a trailing ```` ``` ````, strip again. -/
def stripFences (raw : List Char) : List Char :=
  let c0 := pyStrip raw
  let c1 := if List.isPrefixOf "```json".data c0 then c0.drop 7 else c0
  let c2 := if List.isPrefixOf "```".data c1 then c1.drop 3 else c1
  let c3 := if List.isSuffixOf "```".data c2 then c2.take (c2.length - 3) else c2
  pyStrip c3

/-- `OpenAIProvider.generate_structured` (openai_provider.py lines
63-145), as a function of the HTTP outcome. -/
def generateStructured {α : Type} (jsonParse : List Char → Option α)
    (outcome : HttpOutcome) : GenResult α :=
  match outcome with
  | .timeoutExc => .raised { kind := .transientExt, msg := "Request timeout".data }
  | .networkExc => .raised { kind := .transientExt, msg := "Network error".data }
  | .response r =>
    if r.status = 429 then
      .raised { kind := .transientExt, msg := "Rate limit exceeded".data }
    else if 500 ≤ r.status then
      .raised { kind := .transientExt, msg := "Server error".data }
    else if r.status ≠ 200 then
      .raised { kind := .modelOutput, msg := "API error".data }
    else
      match r.bodyJson with
      | none => .uncaught "JSONDecodeError".data
      | some body =>
        match body.content with
        | none => .uncaught "KeyError".data
        | some raw =>
          let tokensIn := body.promptTokens.getD 0
          let tokensOut := body.completionTokens.getD 0
          match jsonParse (stripFences raw) with
          | none => .raised { kind := .modelOutput, msg := "Invalid JSON in model output".data }
          | some parsed => .ok raw parsed tokensIn tokensOut

/-! ## Document submission (`docagentline/app/api/routes/documents.py`)

`submit_document`, from the size check on.  The SHA-256 hasher
(`ContentHasher.hash_content`, backed by `hashlib`) is abstracted as a
parameter `hashFn`.  `pipelineQueued` records whether
`background_tasks.add_task(run_pipeline, ...)` was called. -/

inductive SubmitResult where
  | tooLarge
  | ok (documentId : Nat) (status : List Char) (pipelineQueued : Bool)
deriving DecidableEq, Repr

def submitDocument (hashFn : List Nat → List Char) (maxSizeBytes : Nat)
    (sd : SideDB) (content : List Nat) (schemaVersion : List Char)
    (filename : List Char) : SideDB × SubmitResult :=
  if maxSizeBytes < content.length then (sd, .tooLarge)
  else
    let contentHash := hashFn content
    match sd.docs.find? (fun d =>
        d.contentHash = contentHash ∧ d.schemaVersion = schemaVersion) with
    | some existing => (sd, .ok existing.id existing.status false)
    | none =>
      let documentId := sd.nextDocId
      let sd' := { sd with
                   docs := sd.docs ++ [{ id := documentId, source := filename,
                                         contentHash := contentHash,
                                         schemaVersion := schemaVersion,
                                         status := "pending".data,
                                         fileSizeBytes := content.length }],
                   raws := sd.raws ++ [{ documentId := documentId, content := content }],
                   nextDocId := sd.nextDocId + 1 }
      (sd', .ok documentId "pending".data true)

/-! ## Helper lemmas -/

/-- Well-formedness of the autoincrement key: every existing
`pipeline_runs` id is below the next id the store will allocate. -/
def RunIdsFresh (db : DB) : Prop :=
  ∀ r ∈ db.runs, r.id < db.nextRunId

lemma map_id_of_mem {α : Type} (l : List α) (f : α → α) (h : ∀ x ∈ l, f x = x) :
    l.map f = l := by
  induction l with
  | nil => rfl
  | cons a t ih =>
    simp only [List.map_cons, h a (List.mem_cons_self a t)]
    rw [ih (fun x hx => h x (List.mem_cons_of_mem a hx))]

/-- The failed-run row recorded by a single failing attempt. -/
def failedRow (db : DB) (documentId : Nat) (stageName : List Char) (attempt : Nat)
    (correlationId : Option (List Char)) (e : PyExc) : RunRow :=
  { id := db.nextRunId, documentId := documentId, stage := stageName,
    status := "failed".data, attempt := attempt,
    errType := some (classify_error e), errMsg := some (e.msg.take 1000),
    correlationId := correlationId }

/-- A non-retryable failure makes exactly one attempt: one new
`pipeline_runs` row (failed, with the classified error type), one
metric row, a single `invoked` event, no sleep, and the exception is
re-raised. -/
lemma retryLoop_nonretryable (cfg : EngineCfg) (documentId : Nat)
    (stageName : List Char) (stage : StageModel) (correlationId : Option (List Char))
    (rand : Nat → ℚ) (a : Nat) (db : DB) (sd2 : SideDB) (e : PyExc)
    (ha : a ≤ cfg.maxRetries + 1)
    (hexec : stage a db.side = (sd2, some e))
    (hnr : e.kind ≠ ErrKind.transientExt)
    (hfresh : RunIdsFresh db) :
    retryLoop cfg documentId stageName stage correlationId rand a db =
      ({ runs := db.runs ++ [failedRow db documentId stageName a correlationId e],
         mets := db.mets ++ [{ runId := db.nextRunId, stage := stageName }],
         nextRunId := db.nextRunId + 1, side := sd2 },
       [Event.invoked stageName a], some e) := by
  rw [retryLoop]
  rw [dif_pos ha]
  simp only [createRunRecord, hexec]
  have hretry : is_retryable e = false := by
    simp [is_retryable, hnr]
  simp only [hretry, Bool.false_eq_true, if_false]
  simp only [failRunRecord, getRunStage, List.map_append, List.find?_append]
  have hmap : db.runs.map (fun (r : RunRow) =>
      if r.id = db.nextRunId then
        { r with status := "failed".data, errType := some (classify_error e),
                 errMsg := some (e.msg.take 1000) }
      else r) = db.runs := by
    apply map_id_of_mem
    intro r hr
    have hlt := hfresh r hr
    have hne : r.id ≠ db.nextRunId := by omega
    simp [hne]
  have hfind : db.runs.find? (fun r => r.id = db.nextRunId) = none := by
    rw [List.find?_eq_none]
    intro r hr
    have := hfresh r hr
    simp only [decide_eq_true_eq]
    omega
  simp [hmap, hfind, failedRow]

/-! ## Concrete fixtures for witnesses -/

/-- Empty store. -/
def db0 : DB :=
  { runs := [], mets := [], nextRunId := 0,
    side := { docs := [], raws := [], outs := [], nextDocId := 0 } }

/-- Default engine configuration (`LLM_MAX_RETRIES=3`,
`PIPELINE_RETRY_BACKOFF_BASE=2.0`, `PIPELINE_RETRY_BACKOFF_MAX=60.0`),
with jitter off. -/
def cfg0 : EngineCfg := { maxRetries := 3, backoffBase := 2, backoffMax := 60, useJitter := false }

def rand0 : Nat → ℚ := fun _ => 1/2

/-- A stage that always raises a `ModelOutputError`. -/
def stageModelOutput : StageModel := fun _ sd => (sd, some { kind := ErrKind.modelOutput, msg := "bad".data })

/-- A stage that always raises a plain (non-taxonomy) exception. -/
def stagePlainError : StageModel := fun _ sd => (sd, some { kind := ErrKind.other, msg := "KeyError".data })

lemma db0_fresh : RunIdsFresh db0 := by
  intro r hr
  simp [db0] at hr

/-! ## Claims -/

/-- C3: `is_retryable(e)` holds iff `e` is of kind `TransientExternal`;
for any error of another kind the engine makes exactly one attempt,
records one failed `PipelineRun` row carrying the classified
`error_type`, and re-raises without sleeping or retrying (the trace is
a single `invoked` event, with no `slept` event). -/
theorem c3_retryable_iff_transient_nonretryable_single_attempt :
    (∀ e : PyExc, is_retryable e = true ↔ e.kind = ErrKind.transientExt) ∧
    ∀ (cfg : EngineCfg) (documentId : Nat) (stageName : List Char) (stage : StageModel)
      (correlationId : Option (List Char)) (rand : Nat → ℚ) (db : DB) (sd2 : SideDB)
      (e : PyExc),
      RunIdsFresh db →
      stage 1 db.side = (sd2, some e) →
      e.kind ≠ ErrKind.transientExt →
      executeStageWithRetry cfg documentId stageName stage correlationId rand db =
        ({ runs := db.runs ++ [failedRow db documentId stageName 1 correlationId e],
           mets := db.mets ++ [{ runId := db.nextRunId, stage := stageName }],
           nextRunId := db.nextRunId + 1, side := sd2 },
         [Event.invoked stageName 1], some e) := by
  constructor
  · intro e
    simp [is_retryable]
  · intro cfg documentId stageName stage correlationId rand db sd2 e hfresh hexec hnr
    exact retryLoop_nonretryable cfg documentId stageName stage correlationId rand 1 db sd2 e
      (by omega) hexec hnr hfresh

/-- Witness for C3 at a concrete input: a `ModelOutputError` from the
stage on an empty store aborts after a single attempt. -/
theorem c3_witness :
    RunIdsFresh db0 ∧
    stageModelOutput 1 db0.side = (db0.side, some { kind := ErrKind.modelOutput, msg := "bad".data }) ∧
    ErrKind.modelOutput ≠ ErrKind.transientExt ∧
    executeStageWithRetry cfg0 1 "chunking".data stageModelOutput none rand0 db0 =
      ({ runs := db0.runs ++ [failedRow db0 1 "chunking".data 1 none { kind := ErrKind.modelOutput, msg := "bad".data }],
         mets := db0.mets ++ [{ runId := db0.nextRunId, stage := "chunking".data }],
         nextRunId := db0.nextRunId + 1, side := db0.side },
       [Event.invoked "chunking".data 1], some { kind := ErrKind.modelOutput, msg := "bad".data }) :=
  ⟨db0_fresh, rfl, by decide,
   c3_retryable_iff_transient_nonretryable_single_attempt.2 cfg0 1 "chunking".data
     stageModelOutput none rand0 db0 db0.side
     { kind := ErrKind.modelOutput, msg := "bad".data } db0_fresh rfl (by decide)⟩

/-- C10: an exception that is not an instance of any of the eleven
taxonomy classes classifies as `"unknown"`, is not retryable, and the
engine records one failed run with `error_type = "unknown"` and aborts
after exactly one attempt. -/
theorem c10_unknown_error_single_attempt :
    (∀ m : List Char, classify_error { kind := ErrKind.other, msg := m } = "unknown".data ∧
       is_retryable { kind := ErrKind.other, msg := m } = false) ∧
    ∀ (cfg : EngineCfg) (documentId : Nat) (stageName : List Char) (stage : StageModel)
      (correlationId : Option (List Char)) (rand : Nat → ℚ) (db : DB) (sd2 : SideDB)
      (m : List Char),
      RunIdsFresh db →
      stage 1 db.side = (sd2, some { kind := ErrKind.other, msg := m }) →
      executeStageWithRetry cfg documentId stageName stage correlationId rand db =
        ({ runs := db.runs ++ [{ id := db.nextRunId, documentId := documentId,
                                 stage := stageName, status := "failed".data, attempt := 1,
                                 errType := some "unknown".data,
                                 errMsg := some (m.take 1000),
                                 correlationId := correlationId }],
           mets := db.mets ++ [{ runId := db.nextRunId, stage := stageName }],
           nextRunId := db.nextRunId + 1, side := sd2 },
         [Event.invoked stageName 1], some { kind := ErrKind.other, msg := m }) := by
  constructor
  · intro m
    exact ⟨rfl, rfl⟩
  · intro cfg documentId stageName stage correlationId rand db sd2 m hfresh hexec
    have h := retryLoop_nonretryable cfg documentId stageName stage correlationId rand 1 db sd2
      { kind := ErrKind.other, msg := m } (by omega) hexec (by simp) hfresh
    simpa [failedRow, classify_error] using h

/-- Witness for C10 at a concrete input: a plain `KeyError` escaping
the stage. -/
theorem c10_witness :
    RunIdsFresh db0 ∧
    stagePlainError 1 db0.side = (db0.side, some { kind := ErrKind.other, msg := "KeyError".data }) ∧
    executeStageWithRetry cfg0 2 "validation".data stagePlainError none rand0 db0 =
      ({ runs := db0.runs ++ [{ id := db0.nextRunId, documentId := 2,
                                stage := "validation".data, status := "failed".data, attempt := 1,
                                errType := some "unknown".data,
                                errMsg := some (("KeyError".data).take 1000),
                                correlationId := none }],
         mets := db0.mets ++ [{ runId := db0.nextRunId, stage := "validation".data }],
         nextRunId := db0.nextRunId + 1, side := db0.side },
       [Event.invoked "validation".data 1], some { kind := ErrKind.other, msg := "KeyError".data }) :=
  ⟨db0_fresh, rfl,
   c10_unknown_error_single_attempt.2 cfg0 2 "validation".data stagePlainError none rand0 db0
     db0.side "KeyError".data db0_fresh rfl⟩

lemma exists_trace_shape (p : DB × List Event × Option PyExc) (ev1 ev2 : Event) :
    ∃ db' evs res,
      (match p with | (db4, evs0, r) => (db4, ev1 :: ev2 :: evs0, r)) =
        (db', ev1 :: ev2 :: evs, res) := by
  rcases p with ⟨a, b, c⟩
  exact ⟨a, b, c, rfl⟩

/-- C2: after a retryable failure on attempt `a ≤ max_retries`, the
engine sleeps before attempt `a + 1`; the sleep equals
`min(backoff_base^(a-1), backoff_max)` when jitter is off, and that
value times a factor in `[0.5, 1.5)` (namely `0.5 + random()`) when
jitter is on. -/
theorem c2_backoff_between_attempts (cfg : EngineCfg) (documentId : Nat)
    (stageName : List Char) (stage : StageModel) (correlationId : Option (List Char))
    (rand : Nat → ℚ) (a : Nat) (db : DB) (sd2 : SideDB) (e : PyExc)
    (ha1 : 1 ≤ a) (ha : a ≤ cfg.maxRetries)
    (hexec : stage a db.side = (sd2, some e))
    (hr : e.kind = ErrKind.transientExt)
    (hu0 : 0 ≤ rand a) (hu1 : rand a < 1) :
    (∃ db' evs res,
       retryLoop cfg documentId stageName stage correlationId rand a db =
         (db', Event.invoked stageName a ::
               Event.slept (computeBackoff cfg.backoffBase cfg.backoffMax a
                 cfg.useJitter (rand a)) :: evs, res)) ∧
    (cfg.useJitter = false →
       computeBackoff cfg.backoffBase cfg.backoffMax a cfg.useJitter (rand a) =
         min (cfg.backoffBase ^ (a - 1)) cfg.backoffMax) ∧
    (cfg.useJitter = true →
       ∃ f : ℚ, 1/2 ≤ f ∧ f < 3/2 ∧
         computeBackoff cfg.backoffBase cfg.backoffMax a cfg.useJitter (rand a) =
           min (cfg.backoffBase ^ (a - 1)) cfg.backoffMax * f) := by
  refine ⟨?_, ?_, ?_⟩
  · rw [retryLoop]
    rw [dif_pos (by omega : a ≤ cfg.maxRetries + 1)]
    have hretry : is_retryable e = true := by
      simp [is_retryable, hr]
    have hle : ¬ a > cfg.maxRetries := by omega
    simp only [createRunRecord, hexec, hretry, if_true, if_neg hle]
    exact exists_trace_shape _ _ _
  · intro hj
    rw [hj]
    simp [computeBackoff]
  · intro hj
    rw [hj]
    refine ⟨1/2 + rand a, by linarith, by linarith, ?_⟩
    simp [computeBackoff, mul_comm]

/-- A stage that always raises a `TransientExternalError`. -/
def stageTransient : StageModel := fun _ sd => (sd, some { kind := ErrKind.transientExt, msg := "Rate limit exceeded".data })

/-- Witness for C2 at a concrete input: attempt 1 of a stage raising a
transient error under the default configuration. -/
theorem c2_witness :
    (1 ≤ 1 ∧ 1 ≤ cfg0.maxRetries ∧
     stageTransient 1 db0.side = (db0.side, some { kind := ErrKind.transientExt, msg := "Rate limit exceeded".data }) ∧
     (0 : ℚ) ≤ rand0 1 ∧ rand0 1 < 1) ∧
    ((∃ db' evs res,
       retryLoop cfg0 7 "embedding".data stageTransient none rand0 1 db0 =
         (db', Event.invoked "embedding".data 1 ::
               Event.slept (computeBackoff cfg0.backoffBase cfg0.backoffMax 1
                 cfg0.useJitter (rand0 1)) :: evs, res)) ∧
     (cfg0.useJitter = false →
        computeBackoff cfg0.backoffBase cfg0.backoffMax 1 cfg0.useJitter (rand0 1) =
          min (cfg0.backoffBase ^ (1 - 1)) cfg0.backoffMax) ∧
     (cfg0.useJitter = true →
        ∃ f : ℚ, 1/2 ≤ f ∧ f < 3/2 ∧
          computeBackoff cfg0.backoffBase cfg0.backoffMax 1 cfg0.useJitter (rand0 1) =
            min (cfg0.backoffBase ^ (1 - 1)) cfg0.backoffMax * f)) :=
  ⟨⟨le_refl 1, by decide, rfl, by norm_num [rand0], by norm_num [rand0]⟩,
   c2_backoff_between_attempts cfg0 7 "embedding".data stageTransient none rand0 1 db0
     db0.side { kind := ErrKind.transientExt, msg := "Rate limit exceeded".data }
     (le_refl 1) (by decide) rfl rfl (by norm_num [rand0]) (by norm_num [rand0])⟩

/-! ### Invariant lemmas for the engine state machine -/

lemma fresh_side_update (db : DB) (sd : SideDB) (h : RunIdsFresh db) :
    RunIdsFresh { db with side := sd } := h

lemma fresh_createRunRecord (db : DB) (d : Nat) (n : List Char) (a : Nat)
    (cid : Option (List Char)) (h : RunIdsFresh db) :
    RunIdsFresh (createRunRecord db d n a cid).1 := by
  intro r hr
  simp only [createRunRecord, List.mem_append, List.mem_singleton] at hr
  rcases hr with hr | hr
  · have := h r hr
    simp only [createRunRecord]
    omega
  · subst hr
    simp [createRunRecord]

lemma fresh_completeRunRecord (db : DB) (rid : Nat) (h : RunIdsFresh db) :
    RunIdsFresh (completeRunRecord db rid) := by
  intro r hr
  simp only [completeRunRecord, List.mem_map] at hr
  obtain ⟨r0, hr0, hmap⟩ := hr
  have := h r0 hr0
  simp only [completeRunRecord]
  by_cases hid : r0.id = rid
  · rw [if_pos hid] at hmap
    subst hmap
    simpa using this
  · rw [if_neg hid] at hmap
    subst hmap
    exact this

lemma fresh_failRunRecord (db : DB) (rid : Nat) (et em : List Char) (h : RunIdsFresh db) :
    RunIdsFresh (failRunRecord db rid et em) := by
  intro r hr
  simp only [failRunRecord, List.mem_map] at hr
  obtain ⟨r0, hr0, hmap⟩ := hr
  have := h r0 hr0
  simp only [failRunRecord]
  by_cases hid : r0.id = rid
  · rw [if_pos hid] at hmap
    subst hmap
    simpa using this
  · rw [if_neg hid] at hmap
    subst hmap
    exact this

lemma completed_mono_side (db : DB) (sd : SideDB) (docId : Nat) (m : List Char) :
    isStageCompleted { db with side := sd } docId m = isStageCompleted db docId m := rfl

lemma completed_mono_createRunRecord (db : DB) (d : Nat) (n : List Char) (a : Nat)
    (cid : Option (List Char)) (docId : Nat) (m : List Char)
    (h : isStageCompleted db docId m = true) :
    isStageCompleted (createRunRecord db d n a cid).1 docId m = true := by
  simp only [isStageCompleted, List.any_eq_true] at h ⊢
  obtain ⟨r, hr, hp⟩ := h
  exact ⟨r, by simp [createRunRecord, hr], hp⟩

lemma completed_mono_completeRunRecord (db : DB) (rid : Nat) (docId : Nat) (m : List Char)
    (h : isStageCompleted db docId m = true) :
    isStageCompleted (completeRunRecord db rid) docId m = true := by
  simp only [isStageCompleted, List.any_eq_true] at h ⊢
  obtain ⟨r, hr, hp⟩ := h
  by_cases hid : r.id = rid
  · refine ⟨{ r with status := "completed".data }, ?_, ?_⟩
    · simp only [completeRunRecord, List.mem_map]
      exact ⟨r, hr, by simp [hid]⟩
    · simp only [decide_eq_true_eq] at hp
      simp [hp.1, hp.2.1]
  · refine ⟨r, ?_, hp⟩
    simp only [completeRunRecord, List.mem_map]
    exact ⟨r, hr, by simp [hid]⟩

lemma completed_mono_failRunRecord (db : DB) (rid : Nat) (et em : List Char)
    (docId : Nat) (m : List Char)
    (hsafe : ∀ r ∈ db.runs, r.id = rid → r.status ≠ "completed".data)
    (h : isStageCompleted db docId m = true) :
    isStageCompleted (failRunRecord db rid et em) docId m = true := by
  simp only [isStageCompleted, List.any_eq_true] at h ⊢
  obtain ⟨r, hr, hp⟩ := h
  simp only [decide_eq_true_eq] at hp
  have hid : r.id ≠ rid := by
    intro hid
    exact hsafe r hr hid hp.2.2
  refine ⟨r, ?_, by simp [hp]⟩
  simp only [failRunRecord, List.mem_map]
  exact ⟨r, hr, by simp [hid]⟩

/-- After `completeRunRecord` on a store containing the `running` row
for `(d, n)` with id `rid`, the stage counts as completed. -/
lemma completed_after_completeRunRecord (db : DB) (rid : Nat) (d : Nat) (n : List Char)
    (row : RunRow) (hrow : row ∈ db.runs) (hid : row.id = rid)
    (hdoc : row.documentId = d) (hstage : row.stage = n) :
    isStageCompleted (completeRunRecord db rid) d n = true := by
  simp only [isStageCompleted, List.any_eq_true]
  refine ⟨{ row with status := "completed".data }, ?_, ?_⟩
  · simp only [completeRunRecord, List.mem_map]
    exact ⟨row, hrow, by simp [hid]⟩
  · simp [hdoc, hstage]

/-- Invariants of the retry loop: freshness of run ids is preserved,
existing completed runs survive, a successful return leaves `(d, n)`
completed, and the engine never writes a document status from inside
the loop. -/
lemma retryLoop_spec (cfg : EngineCfg) (d : Nat) (n : List Char) (stage : StageModel)
    (cid : Option (List Char)) (rand : Nat → ℚ) :
    ∀ (a : Nat) (db db' : DB) (evs : List Event) (res : Option PyExc),
      RunIdsFresh db →
      retryLoop cfg d n stage cid rand a db = (db', evs, res) →
      RunIdsFresh db' ∧
      (∀ docId m, isStageCompleted db docId m = true → isStageCompleted db' docId m = true) ∧
      (res = none → isStageCompleted db' d n = true) ∧
      (∀ dId s, Event.docWrite dId s ∉ evs) := by
  suffices H : ∀ (k a : Nat) (db db' : DB) (evs : List Event) (res : Option PyExc),
      cfg.maxRetries + 2 - a ≤ k →
      RunIdsFresh db →
      retryLoop cfg d n stage cid rand a db = (db', evs, res) →
      RunIdsFresh db' ∧
      (∀ docId m, isStageCompleted db docId m = true → isStageCompleted db' docId m = true) ∧
      (res = none → isStageCompleted db' d n = true) ∧
      (∀ dId s, Event.docWrite dId s ∉ evs) by
    intro a db db' evs res hf he
    exact H (cfg.maxRetries + 2 - a) a db db' evs res le_rfl hf he
  intro k
  induction k with
  | zero =>
    intro a db db' evs res hk hf he
    rw [retryLoop, dif_neg (by omega)] at he
    simp only [Prod.mk.injEq] at he
    obtain ⟨h1, h2, h3⟩ := he
    subst h1; subst h2; subst h3
    exact ⟨hf, fun _ _ h => h, by simp, by simp⟩
  | succ k ih =>
    intro a db db' evs res hk hf he
    by_cases hle : a ≤ cfg.maxRetries + 1
    · rw [retryLoop, dif_pos hle] at he
      rcases hstage : stage a db.side with ⟨sd2, stres⟩
      cases stres with
      | none =>
        -- success branch
        simp only [createRunRecord, hstage] at he
        simp only [Prod.mk.injEq] at he
        obtain ⟨h1, h2, h3⟩ := he
        subst h1; subst h2; subst h3
        have hfresh2 : RunIdsFresh
            ({ runs := db.runs ++ [{ id := db.nextRunId, documentId := d, stage := n,
                                     status := "running".data, attempt := a,
                                     errType := none, errMsg := none, correlationId := cid }],
               mets := db.mets, nextRunId := db.nextRunId + 1, side := sd2 } : DB) := by
          intro r hr
          simp only [List.mem_append, List.mem_singleton] at hr
          show r.id < db.nextRunId + 1
          rcases hr with hr | hr
          · have := hf r hr; omega
          · subst hr; exact Nat.lt_succ_self _
        refine ⟨fresh_completeRunRecord _ _ hfresh2, ?_, ?_, by simp⟩
        · intro docId m h
          apply completed_mono_completeRunRecord
          simp only [isStageCompleted, List.any_eq_true] at h ⊢
          obtain ⟨r, hr, hp⟩ := h
          exact ⟨r, by simp [hr], hp⟩
        · intro _
          exact completed_after_completeRunRecord _ _ d n
            { id := db.nextRunId, documentId := d, stage := n,
              status := "running".data, attempt := a,
              errType := none, errMsg := none, correlationId := cid }
            (by simp) rfl rfl rfl
      | some e =>
        -- failure branch
        simp only [createRunRecord, hstage] at he
        have hsafe : ∀ (r : RunRow),
            r ∈ (db.runs ++ [({ id := db.nextRunId, documentId := d, stage := n,
                                status := "running".data, attempt := a,
                                errType := none, errMsg := none,
                                correlationId := cid } : RunRow)]) →
            r.id = db.nextRunId → r.status ≠ "completed".data := by
          intro r hr hid
          simp only [List.mem_append, List.mem_singleton] at hr
          rcases hr with hr | hr
          · have := hf r hr; omega
          · subst hr; simp
        split at he
        · -- retryable
          split at he
          · -- attempt > maxRetries: re-raise
            simp only [Prod.mk.injEq] at he
            obtain ⟨h1, h2, h3⟩ := he
            subst h1; subst h2; subst h3
            refine ⟨fresh_failRunRecord _ _ _ _ ?_, ?_, by simp, by simp⟩
            · intro r hr
              simp only [List.mem_append, List.mem_singleton] at hr
              rcases hr with hr | hr
              · have := hf r hr; simp; omega
              · subst hr; simp
            · intro docId m h
              apply completed_mono_failRunRecord _ _ _ _ _ _ hsafe
              simp only [isStageCompleted, List.any_eq_true] at h ⊢
              obtain ⟨r, hr, hp⟩ := h
              exact ⟨r, by simp [hr], hp⟩
          · -- sleep and retry
            simp only [Prod.mk.injEq] at he
            obtain ⟨h1, h2, h3⟩ := he
            subst h1; subst h2; subst h3
            have hfresh3 : RunIdsFresh (failRunRecord
                ({ runs := db.runs ++ [{ id := db.nextRunId, documentId := d, stage := n,
                                         status := "running".data, attempt := a,
                                         errType := none, errMsg := none,
                                         correlationId := cid }],
                   mets := db.mets, nextRunId := db.nextRunId + 1, side := sd2 } : DB)
                db.nextRunId (classify_error e) e.msg) := by
              apply fresh_failRunRecord
              intro r hr
              simp only [List.mem_append, List.mem_singleton] at hr
              show r.id < db.nextRunId + 1
              rcases hr with hr | hr
              · have := hf r hr; omega
              · subst hr; exact Nat.lt_succ_self _
            obtain ⟨ih1, ih2, ih3, ih4⟩ := ih (a + 1) _ _ _ _ (by omega) hfresh3 rfl
            refine ⟨ih1, ?_, ih3, ?_⟩
            · intro docId m h
              apply ih2
              apply completed_mono_failRunRecord _ _ _ _ _ _ hsafe
              simp only [isStageCompleted, List.any_eq_true] at h ⊢
              obtain ⟨r, hr, hp⟩ := h
              exact ⟨r, by simp [hr], hp⟩
            · intro dId s
              simp only [List.mem_cons]
              push_neg
              exact ⟨by simp, by simp, ih4 dId s⟩
        · -- non-retryable: re-raise
          simp only [Prod.mk.injEq] at he
          obtain ⟨h1, h2, h3⟩ := he
          subst h1; subst h2; subst h3
          refine ⟨fresh_failRunRecord _ _ _ _ ?_, ?_, by simp, by simp⟩
          · intro r hr
            simp only [List.mem_append, List.mem_singleton] at hr
            rcases hr with hr | hr
            · have := hf r hr; simp; omega
            · subst hr; simp
          · intro docId m h
            apply completed_mono_failRunRecord _ _ _ _ _ _ hsafe
            simp only [isStageCompleted, List.any_eq_true] at h ⊢
            obtain ⟨r, hr, hp⟩ := h
            exact ⟨r, by simp [hr], hp⟩
    · rw [retryLoop, dif_neg hle] at he
      simp only [Prod.mk.injEq] at he
      obtain ⟨h1, h2, h3⟩ := he
      subst h1; subst h2; subst h3
      exact ⟨hf, fun _ _ h => h, by simp, by simp⟩

/-- Invariants of the stage loop: freshness preserved, completed runs
survive, no document-status write happens inside the loop, and a run
that raises no exception leaves every listed stage completed and
reports each stage as `skipped` or `completed`. -/
lemma runStages_spec (cfg : EngineCfg) (d : Nat) (cid : Option (List Char))
    (rand : Nat → ℚ) :
    ∀ (stages : List (List Char × StageModel)) (db db' : DB)
      (res : List (List Char × List Char)) (evs : List Event) (err : Option PyExc),
      RunIdsFresh db →
      runStages cfg d cid rand stages db = (db', res, evs, err) →
      RunIdsFresh db' ∧
      (∀ docId m, isStageCompleted db docId m = true → isStageCompleted db' docId m = true) ∧
      (∀ dId s, Event.docWrite dId s ∉ evs) ∧
      (err = none →
         (∀ p ∈ stages, isStageCompleted db' d p.1 = true) ∧
         res.map Prod.fst = stages.map Prod.fst ∧
         ∀ q ∈ res, q.2 = "skipped".data ∨ q.2 = "completed".data) := by
  intro stages
  induction stages with
  | nil =>
    intro db db' res evs err hf he
    simp only [runStages, Prod.mk.injEq] at he
    obtain ⟨h1, h2, h3, h4⟩ := he
    subst h1; subst h2; subst h3; subst h4
    exact ⟨hf, fun _ _ h => h, by simp, by simp⟩
  | cons hd rest ih =>
    rcases hd with ⟨n, stg⟩
    intro db db' res evs err hf he
    by_cases hskip : isStageCompleted db d n = true
    · simp only [runStages, hskip, if_true, Prod.mk.injEq] at he
      obtain ⟨h1, h2, h3, h4⟩ := he
      subst h1; subst h2; subst h3; subst h4
      obtain ⟨ih1, ih2, ih3, ih4⟩ := ih db _ _ _ _ hf rfl
      refine ⟨ih1, ih2, ih3, ?_⟩
      intro herr
      obtain ⟨c1, c2, c3⟩ := ih4 herr
      refine ⟨?_, by simp [c2], ?_⟩
      · intro p hp
        rcases List.mem_cons.mp hp with hp | hp
        · subst hp
          exact ih2 d n hskip
        · exact c1 p hp
      · intro q hq
        rcases List.mem_cons.mp hq with hq | hq
        · subst hq; left; rfl
        · exact c3 q hq
    · rcases hrun : executeStageWithRetry cfg d n stg cid rand db with ⟨db1, evs1, errRun⟩
      have hbool : isStageCompleted db d n = false := by
        simpa using hskip
      obtain ⟨r1, r2, r3, r4⟩ :=
        retryLoop_spec cfg d n stg cid rand 1 db db1 evs1 errRun hf hrun
      cases errRun with
      | none =>
        simp only [runStages, hbool, Bool.false_eq_true, if_false, hrun, Prod.mk.injEq] at he
        obtain ⟨h1, h2, h3, h4⟩ := he
        subst h1; subst h2; subst h3; subst h4
        obtain ⟨ih1, ih2, ih3, ih4⟩ := ih db1 _ _ _ _ r1 rfl
        refine ⟨ih1, fun docId m h => ih2 docId m (r2 docId m h), ?_, ?_⟩
        · intro dId s
          simp only [List.mem_append]
          push_neg
          exact ⟨r4 dId s, ih3 dId s⟩
        · intro herr
          obtain ⟨c1, c2, c3⟩ := ih4 herr
          refine ⟨?_, by simp [c2], ?_⟩
          · intro p hp
            rcases List.mem_cons.mp hp with hp | hp
            · subst hp
              exact ih2 d n (r3 rfl)
            · exact c1 p hp
          · intro q hq
            rcases List.mem_cons.mp hq with hq | hq
            · subst hq; right; rfl
            · exact c3 q hq
      | some e =>
        simp only [runStages, hbool, Bool.false_eq_true, if_false, hrun, Prod.mk.injEq] at he
        obtain ⟨h1, h2, h3, h4⟩ := he
        subst h1; subst h2; subst h3; subst h4
        exact ⟨r1, r2, r4, fun h => Option.noConfusion h⟩

/-- A store in which every listed stage is already completed makes the
stage loop a pure skip: no store change, no events, every stage
reported `skipped`. -/
lemma runStages_all_completed (cfg : EngineCfg) (d : Nat) (cid : Option (List Char))
    (rand : Nat → ℚ) :
    ∀ (stages : List (List Char × StageModel)) (db : DB),
      (∀ p ∈ stages, isStageCompleted db d p.1 = true) →
      runStages cfg d cid rand stages db =
        (db, stages.map (fun p => (p.1, "skipped".data)), [], none) := by
  intro stages
  induction stages with
  | nil => intro db _; simp [runStages]
  | cons hd rest ih =>
    rcases hd with ⟨n, stg⟩
    intro db hall
    have hn : isStageCompleted db d n = true := hall (n, stg) (List.mem_cons_self _ _)
    have hrest := ih db (fun p hp => hall p (List.mem_cons_of_mem _ hp))
    simp only [runStages, hn, if_true, hrest, List.map_cons]

/-- C1: when the engine reaches a stage that already has a completed
`PipelineRun` row, it does not invoke the stage's execute operation —
the store and the event trace are exactly those of the remaining
stages — records `skipped` for it and continues; consequently a second
full pipeline run over a document whose first run raised nothing
reports `skipped` for every stage, emits no stage events, and changes
nothing but the final document-status write. -/
theorem c1_completed_stage_skipped_and_second_run_all_skipped :
    (∀ (cfg : EngineCfg) (d : Nat) (cid : Option (List Char)) (rand : Nat → ℚ)
       (n : List Char) (stg : StageModel) (rest : List (List Char × StageModel))
       (db db2 : DB) (res2 : List (List Char × List Char)) (evs2 : List Event)
       (err2 : Option PyExc),
       isStageCompleted db d n = true →
       runStages cfg d cid rand rest db = (db2, res2, evs2, err2) →
       runStages cfg d cid rand ((n, stg) :: rest) db =
         (db2, (n, "skipped".data) :: res2, evs2, err2)) ∧
    (∀ (cfg : EngineCfg) (d : Nat) (cid cid2 : Option (List Char))
       (rand rand2 : Nat → ℚ) (stages : List (List Char × StageModel))
       (db db1 : DB) (res1 : List (List Char × List Char)) (evs1 : List Event),
       RunIdsFresh db →
       executePipeline cfg d cid rand stages db = (db1, res1, evs1, none) →
       executePipeline cfg d cid2 rand2 stages db1 =
         ({ db1 with side := setDocStatus db1.side d "completed".data },
          stages.map (fun p => (p.1, "skipped".data)),
          [Event.docWrite d "completed".data], none)) := by
  constructor
  · intro cfg d cid rand n stg rest db db2 res2 evs2 err2 hskip hrest
    simp [runStages, hskip, hrest]
  · intro cfg d cid cid2 rand rand2 stages db db1 res1 evs1 hfresh he
    rcases hrs : runStages cfg d cid rand stages db with ⟨dbS, resS, evsS, errS⟩
    cases errS with
    | some e =>
      simp only [executePipeline, hrs, Prod.mk.injEq] at he
      exact absurd he.2.2.2 (by simp)
    | none =>
      simp only [executePipeline, hrs, Prod.mk.injEq] at he
      obtain ⟨h1, h2, h3, _⟩ := he
      obtain ⟨s1, s2, s3, s4⟩ := runStages_spec cfg d cid rand stages db dbS resS evsS none hfresh hrs
      obtain ⟨call, _, _⟩ := s4 rfl
      have hall : ∀ p ∈ stages, isStageCompleted db1 d p.1 = true := by
        intro p hp
        have : isStageCompleted db1 d p.1 = isStageCompleted dbS d p.1 := by
          rw [← h1]
          rfl
        rw [this]
        exact call p hp
      rw [executePipeline, runStages_all_completed cfg d cid2 rand2 stages db1 hall]
      rfl

/-- The successful single-stage pipeline run used by several
witnesses. -/
def stageOk : StageModel := fun _ sd => (sd, none)

/-- A store holding one completed `ingest` run for document 1. -/
def dbC : DB :=
  { runs := [{ id := 0, documentId := 1, stage := "ingest".data,
               status := "completed".data, attempt := 1,
               errType := none, errMsg := none, correlationId := none }],
    mets := [], nextRunId := 1,
    side := { docs := [], raws := [], outs := [], nextDocId := 0 } }

/-- The store after one successful `ingest`-only pipeline pass over
`db0` (before the final document-status write, which is a no-op on an
empty `documents` table). -/
def dbDone : DB :=
  { runs := [{ id := 0, documentId := 1, stage := "ingest".data,
               status := "completed".data, attempt := 1,
               errType := none, errMsg := none, correlationId := none }],
    mets := [{ runId := 0, stage := "ingest".data }], nextRunId := 1,
    side := { docs := [], raws := [], outs := [], nextDocId := 0 } }

lemma retryLoop_ok_eval :
    retryLoop cfg0 1 "ingest".data stageOk none rand0 1 db0 =
      (dbDone, [Event.invoked "ingest".data 1], none) := by
  rw [retryLoop]
  simp only [createRunRecord, completeRunRecord, getRunStage, stageOk, db0, dbDone]
  norm_num

lemma executePipeline_ok_eval :
    executePipeline cfg0 1 none rand0 [("ingest".data, stageOk)] db0 =
      (dbDone, [("ingest".data, "completed".data)],
       [Event.invoked "ingest".data 1, Event.docWrite 1 "completed".data], none) := by
  have h1 : runStages cfg0 1 none rand0 [("ingest".data, stageOk)] db0 =
      (dbDone, [("ingest".data, "completed".data)], [Event.invoked "ingest".data 1], none) := by
    have hskip : isStageCompleted db0 1 "ingest".data = false := by decide
    simp only [runStages, hskip, Bool.false_eq_true, if_false, executeStageWithRetry]
    rw [retryLoop_ok_eval]
    rfl
  simp only [executePipeline, h1]
  rfl

/-- Witness for C1 at concrete inputs: a skip of an already-completed
stage, and a full second pipeline run after a successful first one. -/
theorem c1_witness :
    RunIdsFresh db0 ∧
    isStageCompleted dbC 1 "ingest".data = true ∧
    runStages cfg0 1 none rand0 [("ingest".data, stageOk)] dbC =
      ((runStages cfg0 1 none rand0 [] dbC).1,
       ("ingest".data, "skipped".data) :: (runStages cfg0 1 none rand0 [] dbC).2.1,
       (runStages cfg0 1 none rand0 [] dbC).2.2.1,
       (runStages cfg0 1 none rand0 [] dbC).2.2.2) ∧
    executePipeline cfg0 1 none rand0 [("ingest".data, stageOk)] dbDone =
      ({ dbDone with side := setDocStatus dbDone.side 1 "completed".data },
       [("ingest".data, "skipped".data)],
       [Event.docWrite 1 "completed".data], none) :=
  ⟨db0_fresh, by decide,
   c1_completed_stage_skipped_and_second_run_all_skipped.1 cfg0 1 none rand0
     "ingest".data stageOk [] dbC _ _ _ _ (by decide) rfl,
   c1_completed_stage_skipped_and_second_run_all_skipped.2 cfg0 1 none none rand0 rand0
     [("ingest".data, stageOk)] db0 dbDone _ _ db0_fresh executePipeline_ok_eval⟩

/-- C4: the engine's only document-status write is the final
`completed` one — it never writes `failed`; when a stage failure aborts
the pipeline the engine performs no document-status write at all and
returns the store exactly as the stage loop left it; and the
`completed` write happens only after every stage reported `skipped` or
`completed`. -/
theorem c4_failure_leaves_document_status (cfg : EngineCfg) (d : Nat)
    (cid : Option (List Char)) (rand : Nat → ℚ)
    (stages : List (List Char × StageModel)) (db db' : DB)
    (res : List (List Char × List Char)) (evs : List Event) (err : Option PyExc)
    (hfresh : RunIdsFresh db)
    (he : executePipeline cfg d cid rand stages db = (db', res, evs, err)) :
    (∀ dId s, Event.docWrite dId s ∈ evs → dId = d ∧ s = "completed".data) ∧
    (∀ e, err = some e →
       (∀ dId s, Event.docWrite dId s ∉ evs) ∧
       db' = (runStages cfg d cid rand stages db).1) ∧
    (err = none →
       res.map Prod.fst = stages.map Prod.fst ∧
       (∀ q ∈ res, q.2 = "skipped".data ∨ q.2 = "completed".data) ∧
       evs.getLast? = some (Event.docWrite d "completed".data)) := by
  rcases hrs : runStages cfg d cid rand stages db with ⟨dbS, resS, evsS, errS⟩
  obtain ⟨s1, s2, s3, s4⟩ :=
    runStages_spec cfg d cid rand stages db dbS resS evsS errS hfresh hrs
  cases errS with
  | some e =>
    simp only [executePipeline, hrs, Prod.mk.injEq] at he
    obtain ⟨h1, h2, h3, h4⟩ := he
    subst h1; subst h2; subst h3; subst h4
    refine ⟨?_, ?_, fun h => Option.noConfusion h⟩
    · intro dId s hmem
      exact absurd hmem (s3 dId s)
    · intro e' _
      exact ⟨s3, rfl⟩

  | none =>
    simp only [executePipeline, hrs, Prod.mk.injEq] at he
    obtain ⟨h1, h2, h3, h4⟩ := he
    subst h1; subst h2; subst h3; subst h4
    obtain ⟨_, c2, c3⟩ := s4 rfl
    refine ⟨?_, ?_, ?_⟩
    · intro dId s hmem
      rcases List.mem_append.mp hmem with hmem | hmem
      · exact absurd hmem (s3 dId s)
      · simp only [List.mem_singleton, Event.docWrite.injEq] at hmem
        exact ⟨hmem.1, hmem.2⟩
    · intro e' habs
      exact absurd habs (by simp)
    · intro _
      exact ⟨c2, c3, List.getLast?_concat _⟩

/-- Witness for C4 at a concrete input: a pipeline whose only stage
raises a non-retryable `ModelOutputError`. -/
theorem c4_witness :
    RunIdsFresh db0 ∧
    ((∀ dId s, Event.docWrite dId s ∈
        (executePipeline cfg0 5 none rand0 [("chunking".data, stageModelOutput)] db0).2.2.1 →
        dId = 5 ∧ s = "completed".data) ∧
     (∀ e, (executePipeline cfg0 5 none rand0 [("chunking".data, stageModelOutput)] db0).2.2.2 = some e →
        (∀ dId s, Event.docWrite dId s ∉
           (executePipeline cfg0 5 none rand0 [("chunking".data, stageModelOutput)] db0).2.2.1) ∧
        (executePipeline cfg0 5 none rand0 [("chunking".data, stageModelOutput)] db0).1 =
          (runStages cfg0 5 none rand0 [("chunking".data, stageModelOutput)] db0).1) ∧
     ((executePipeline cfg0 5 none rand0 [("chunking".data, stageModelOutput)] db0).2.2.2 = none →
        (executePipeline cfg0 5 none rand0 [("chunking".data, stageModelOutput)] db0).2.1.map Prod.fst =
          [("chunking".data, stageModelOutput)].map Prod.fst ∧
        (∀ q ∈ (executePipeline cfg0 5 none rand0 [("chunking".data, stageModelOutput)] db0).2.1,
           q.2 = "skipped".data ∨ q.2 = "completed".data) ∧
        (executePipeline cfg0 5 none rand0 [("chunking".data, stageModelOutput)] db0).2.2.1.getLast? =
          some (Event.docWrite 5 "completed".data))) :=
  ⟨db0_fresh,
   c4_failure_leaves_document_status cfg0 5 none rand0 [("chunking".data, stageModelOutput)]
     db0 _ _ _ _ db0_fresh rfl⟩

/-- The default chunking configuration (`CHUNK_SIZE=1000`,
`CHUNK_OVERLAP=200`, `CHUNK_MIN_SIZE=100`). -/
def cfgChunk : ChunkCfg := { chunkSize := 1000, chunkOverlap := 200, minChunkSize := 100 }

/-- C5 counterexample: on the empty input text the chunker returns no
chunk at all (`if not text: return []`), while the claim promises at
least one chunk for every input text, explicitly including empty
input. -/
theorem c5_counterexample :
    createChunks cfgChunk List.length [] = [] := rfl

/-- C5 (amended): for every NON-EMPTY input text the chunker returns at
least one chunk, and whenever greedy accumulation produces no chunks it
returns exactly one chunk, `text[:chunk_size]` — the first
`chunk_size` characters of the input, a prefix of it. -/
theorem c5_amended_nonempty_fallback (cfg : ChunkCfg) (tok : List Char → Nat)
    (text : List Char) (h : text ≠ []) :
    createChunks cfg tok text ≠ [] ∧
    (greedyChunks cfg tok text = [] →
       createChunks cfg tok text = [text.take cfg.chunkSize] ∧
       text.take cfg.chunkSize ++ text.drop cfg.chunkSize = text) := by
  unfold createChunks
  rw [if_neg h]
  by_cases hg : greedyChunks cfg tok text = []
  · simp [hg, List.take_append_drop]
  · simp [hg]

/-- Witness for C5 at a concrete input: a one-character text, which the
greedy pass discards (below `min_chars`), triggering the fallback. -/
theorem c5_witness :
    ("a".data ≠ []) ∧
    (createChunks cfgChunk List.length "a".data ≠ [] ∧
     (greedyChunks cfgChunk List.length "a".data = [] →
        createChunks cfgChunk List.length "a".data = ["a".data.take cfgChunk.chunkSize] ∧
        "a".data.take cfgChunk.chunkSize ++ "a".data.drop cfgChunk.chunkSize = "a".data)) :=
  ⟨by decide, c5_amended_nonempty_fallback cfgChunk List.length "a".data (by decide)⟩

/-- C6: during greedy accumulation, when the next paragraph would
overflow `chunk_size` and the current chunk is non-empty, the current
chunk is emitted iff it has at least `min_chars` characters; the next
chunk is seeded with the last paragraph of the flushed chunk when
`overlap > 0` and starts empty otherwise (the overflowing paragraph is
then appended); and the final remainder is flushed under the same
`min_chars` rule. -/
theorem c6_flush_overlap_seeding :
    (∀ (cfg : ChunkCfg) (tok : List Char → Nat) (st : ChunkState) (para : List Char)
       (hpara : pyStrip para ≠ [])
       (hover : cfg.chunkSize < st.size + tok (pyStrip para))
       (hcur : st.current ≠ []),
       ((processPara cfg tok st para).chunks =
          if cfg.minChunkSize ≤ (List.intercalate nl2 st.current).length
          then st.chunks ++ [List.intercalate nl2 st.current] else st.chunks) ∧
       (processPara cfg tok st para).current =
         (if 0 < cfg.chunkOverlap then [st.current.getLast hcur] else []) ++ [pyStrip para]) ∧
    (∀ (cfg : ChunkCfg) (tok : List Char → Nat) (text : List Char) (st : ChunkState),
       st = (paraSplit text []).foldl (processPara cfg tok) ⟨[], [], 0⟩ →
       greedyChunks cfg tok text =
         if st.current ≠ [] ∧ cfg.minChunkSize ≤ (List.intercalate nl2 st.current).length
         then st.chunks ++ [List.intercalate nl2 st.current] else st.chunks) := by
  constructor
  · intro cfg tok st para hpara hover hcur
    have hand : cfg.chunkSize < st.size + tok (pyStrip para) ∧ st.current ≠ [] :=
      ⟨hover, hcur⟩
    by_cases hovl : 0 < cfg.chunkOverlap <;>
      by_cases hmin : cfg.minChunkSize ≤ (List.intercalate nl2 st.current).length <;>
        simp [processPara, flushStep, hpara, hand, List.getLast?_eq_getLast _ hcur,
          hovl, hmin]
  · intro cfg tok text st hst
    subst hst
    simp only [greedyChunks]
    split_ifs <;> first | rfl | tauto

def cfgW : ChunkCfg := { chunkSize := 10, chunkOverlap := 1, minChunkSize := 3 }

def chunkStW : ChunkState := { chunks := [], current := ["aaaa".data], size := 4 }

lemma chunkStW_current_ne : chunkStW.current ≠ [] := by decide

/-- Witness for C6 at concrete inputs: an overflow step with overlap
on, and the final flush of a short text. -/
theorem c6_witness :
    (pyStrip "bbbbbbbb".data ≠ [] ∧
     cfgW.chunkSize < chunkStW.size + List.length (pyStrip "bbbbbbbb".data) ∧
     chunkStW.current ≠ []) ∧
    (((processPara cfgW List.length chunkStW "bbbbbbbb".data).chunks =
        if cfgW.minChunkSize ≤ (List.intercalate nl2 chunkStW.current).length
        then chunkStW.chunks ++ [List.intercalate nl2 chunkStW.current] else chunkStW.chunks) ∧
     (processPara cfgW List.length chunkStW "bbbbbbbb".data).current =
       (if 0 < cfgW.chunkOverlap then [chunkStW.current.getLast chunkStW_current_ne] else [])
         ++ [pyStrip "bbbbbbbb".data]) ∧
    (greedyChunks cfgW List.length "aaaa".data =
       if ((paraSplit "aaaa".data []).foldl (processPara cfgW List.length) ⟨[], [], 0⟩).current ≠ [] ∧
          cfgW.minChunkSize ≤ (List.intercalate nl2
            ((paraSplit "aaaa".data []).foldl (processPara cfgW List.length) ⟨[], [], 0⟩).current).length
       then ((paraSplit "aaaa".data []).foldl (processPara cfgW List.length) ⟨[], [], 0⟩).chunks ++
            [List.intercalate nl2
              ((paraSplit "aaaa".data []).foldl (processPara cfgW List.length) ⟨[], [], 0⟩).current]
       else ((paraSplit "aaaa".data []).foldl (processPara cfgW List.length) ⟨[], [], 0⟩).chunks) :=
  ⟨⟨by decide, by decide, by decide⟩,
   (c6_flush_overlap_seeding.1 cfgW List.length chunkStW "bbbbbbbb".data
      (by decide) (by decide) chunkStW_current_ne),
   (c6_flush_overlap_seeding.2 cfgW List.length "aaaa".data _ rfl)⟩

/-- A trivially total JSON parser, used as the abstract `json.loads` in
concrete witnesses. -/
def jsonParseUnit : List Char → Option Unit := fun _ => some ()

/-- A 201 response whose body parses and whose generated content parses
as JSON. -/
def resp201 : HttpResponse :=
  { status := 201,
    bodyJson := some { content := some "\x7b\x7d".data,
                       promptTokens := some 5, completionTokens := some 3 } }

/-- C7 counterexample: a 2xx status other than 200 (here 201) with a
parseable body and parseable generated content raises `ModelOutput`,
although the claim's exhaustive mapping sends only *non-2xx* statuses
(and parse failures) to `ModelOutput` and lets other 2xx responses
proceed. -/
theorem c7_counterexample :
    generateStructured jsonParseUnit (HttpOutcome.response resp201) =
      GenResult.raised { kind := ErrKind.modelOutput, msg := "API error".data } ∧
    200 ≤ resp201.status ∧ resp201.status < 300 ∧
    jsonParseUnit (stripFences "\x7b\x7d".data) = some () := by
  refine ⟨rfl, by decide, by decide, rfl⟩

/-- C7 (amended): the exhaustive error mapping of
`generate_structured`: 429 and ≥ 500 → `TransientExternal`;
timeout / network error → `TransientExternal`; any other status ≠ 200
(including 2xx statuses other than 200) → `ModelOutput`; a 200 response
with an unparseable JSON body or missing content lets the underlying
non-taxonomy exception propagate unclassified; a 200 response whose
content, after fence stripping, is not parseable as JSON →
`ModelOutput`; otherwise the call succeeds. -/
theorem c7_amended_error_mapping {α : Type} (jsonParse : List Char → Option α)
    (r : HttpResponse) :
    (generateStructured jsonParse HttpOutcome.timeoutExc =
       GenResult.raised { kind := ErrKind.transientExt, msg := "Request timeout".data }) ∧
    (generateStructured jsonParse HttpOutcome.networkExc =
       GenResult.raised { kind := ErrKind.transientExt, msg := "Network error".data }) ∧
    (r.status = 429 →
       generateStructured jsonParse (HttpOutcome.response r) =
         GenResult.raised { kind := ErrKind.transientExt, msg := "Rate limit exceeded".data }) ∧
    (500 ≤ r.status →
       generateStructured jsonParse (HttpOutcome.response r) =
         GenResult.raised { kind := ErrKind.transientExt, msg := "Server error".data }) ∧
    (r.status ≠ 200 → r.status ≠ 429 → r.status < 500 →
       generateStructured jsonParse (HttpOutcome.response r) =
         GenResult.raised { kind := ErrKind.modelOutput, msg := "API error".data }) ∧
    (r.status = 200 → r.bodyJson = none →
       generateStructured jsonParse (HttpOutcome.response r) =
         GenResult.uncaught "JSONDecodeError".data) ∧
    (∀ body, r.status = 200 → r.bodyJson = some body → body.content = none →
       generateStructured jsonParse (HttpOutcome.response r) =
         GenResult.uncaught "KeyError".data) ∧
    (∀ body raw, r.status = 200 → r.bodyJson = some body → body.content = some raw →
       jsonParse (stripFences raw) = none →
       generateStructured jsonParse (HttpOutcome.response r) =
         GenResult.raised { kind := ErrKind.modelOutput, msg := "Invalid JSON in model output".data }) ∧
    (∀ body raw v, r.status = 200 → r.bodyJson = some body → body.content = some raw →
       jsonParse (stripFences raw) = some v →
       generateStructured jsonParse (HttpOutcome.response r) =
         GenResult.ok raw v (body.promptTokens.getD 0) (body.completionTokens.getD 0)) := by
  refine ⟨rfl, rfl, ?_, ?_, ?_, ?_, ?_, ?_, ?_⟩
  · intro h
    simp [generateStructured, h]
  · intro h
    have h429 : r.status ≠ 429 := by omega
    simp [generateStructured, h429, h]
  · intro h200 h429 h500
    have : ¬ 500 ≤ r.status := by omega
    simp [generateStructured, h429, this, h200]
  · intro h200 hbody
    simp [generateStructured, h200, hbody]
  · intro body h200 hbody hcont
    simp [generateStructured, h200, hbody, hcont]
  · intro body raw h200 hbody hcont hparse
    simp [generateStructured, h200, hbody, hcont, hparse]
  · intro body raw v h200 hbody hcont hparse
    simp [generateStructured, h200, hbody, hcont, hparse]

def resp429 : HttpResponse := { status := 429, bodyJson := none }

def body200 : BodyData :=
  { content := some "\x7b\x7d".data, promptTokens := some 11, completionTokens := none }

def resp200 : HttpResponse := { status := 200, bodyJson := some body200 }

/-- Witness for C7 at a concrete input: status 429 maps to
`TransientExternal`, and a 200 response with parseable content
succeeds. -/
theorem c7_witness :
    (resp429.status = 429 ∧
     generateStructured jsonParseUnit (HttpOutcome.response resp429) =
       GenResult.raised { kind := ErrKind.transientExt, msg := "Rate limit exceeded".data }) ∧
    (resp200.status = 200 ∧ resp200.bodyJson = some body200 ∧
     body200.content = some "\x7b\x7d".data ∧
     jsonParseUnit (stripFences "\x7b\x7d".data) = some () ∧
     generateStructured jsonParseUnit (HttpOutcome.response resp200) =
       GenResult.ok "\x7b\x7d".data () (body200.promptTokens.getD 0) (body200.completionTokens.getD 0)) :=
  ⟨⟨rfl, (c7_amended_error_mapping jsonParseUnit resp429).2.2.1 rfl⟩,
   ⟨rfl, rfl, rfl, rfl,
    (c7_amended_error_mapping jsonParseUnit resp200).2.2.2.2.2.2.2.2 body200
      "\x7b\x7d".data () rfl rfl rfl rfl⟩⟩

/-- Python `str.split()` with no argument: split on whitespace runs,
dropping empty pieces; `acc` holds the current word reversed. -/
def pyWordsAux : List Char → List Char → List (List Char)
  | [], acc => if acc = [] then [] else [acc.reverse]
  | c :: rest, acc =>
    if pyIsSpace c then
      if acc = [] then pyWordsAux rest [] else acc.reverse :: pyWordsAux rest []
    else pyWordsAux rest (c :: acc)

def pyWords (cs : List Char) : List (List Char) := pyWordsAux cs []

/-- Modelled from the spec: the claim's token estimator, "the word
count of the corresponding text multiplied by 1.3", for comparison
with what the code returns. -/
def specTokenEstimate (text : List Char) : ℚ := ((pyWords text).length : ℚ) * (13/10)

/-- A 200 response whose body parsed but carried no `usage` counts. -/
def bodyNoUsage : BodyData :=
  { content := some "\x7b\x7d".data, promptTokens := none, completionTokens := none }

/-- C8 counterexample: when the provider reports no token counts, the
OpenAI provider returns 0 for both directions
(`usage.get("prompt_tokens", 0)`), not the claimed `words * 1.3`
estimate, which is 1.3 ≠ 0 for the one-word content here. -/
theorem c8_counterexample :
    generateStructured jsonParseUnit
        (HttpOutcome.response { status := 200, bodyJson := some bodyNoUsage }) =
      GenResult.ok "\x7b\x7d".data () 0 0 ∧
    specTokenEstimate "\x7b\x7d".data = 13/10 ∧ (13/10 : ℚ) ≠ 0 := by
  refine ⟨rfl, ?_, by norm_num⟩
  have hw : (pyWords "\x7b\x7d".data).length = 1 := rfl
  simp only [specTokenEstimate, hw]
  norm_num

/-- C8 (amended): every successful `generate_structured` call returns
the provider-reported token counts when the provider reports them, and
0 for each unreported direction (no word-count estimation happens in
this provider). -/
theorem c8_amended_reported_or_zero {α : Type} (jsonParse : List Char → Option α)
    (body : BodyData) (raw : List Char) (parsed : α) (tin tout : Nat)
    (h : generateStructured jsonParse
           (HttpOutcome.response { status := 200, bodyJson := some body }) =
         GenResult.ok raw parsed tin tout) :
    tin = body.promptTokens.getD 0 ∧ tout = body.completionTokens.getD 0 := by
  cases hcont : body.content with
  | none =>
    simp [generateStructured, hcont] at h
  | some raw' =>
    cases hp : jsonParse (stripFences raw') with
    | none =>
      simp [generateStructured, hcont, hp] at h
    | some v =>
      simp only [generateStructured, hcont, hp] at h
      norm_num [GenResult.ok.injEq] at h
      exact ⟨h.2.2.1.symm, h.2.2.2.symm⟩

/-- Witness for C8 at a concrete input: `prompt_tokens` reported as 11,
`completion_tokens` absent. -/
theorem c8_witness :
    generateStructured jsonParseUnit
        (HttpOutcome.response { status := 200, bodyJson := some body200 }) =
      GenResult.ok "\x7b\x7d".data () 11 0 ∧
    (11 = body200.promptTokens.getD 0 ∧ 0 = body200.completionTokens.getD 0) :=
  ⟨rfl, c8_amended_reported_or_zero jsonParseUnit body200 "\x7b\x7d".data () 11 0 rfl⟩

/-- C9: submitting the same bytes with the same `schema_version` twice
returns the same `document_id` both times; the second submission leaves
the store unchanged (no new Document or RawContent row), triggers no
background pipeline (so no new Chunks or Extractions), and returns the
document's currently stored status. -/
theorem c9_dedup_by_hash (hashFn : List Nat → List Char) (maxSize : Nat)
    (sd0 sd1 : SideDB) (content : List Nat) (sv fn fn2 : List Char) (r1 : SubmitResult)
    (hsize : content.length ≤ maxSize)
    (h1 : submitDocument hashFn maxSize sd0 content sv fn = (sd1, r1)) :
    ∃ i st1 q1, r1 = SubmitResult.ok i st1 q1 ∧
      ∃ d, d ∈ sd1.docs ∧ d.id = i ∧
        submitDocument hashFn maxSize sd1 content sv fn2 =
          (sd1, SubmitResult.ok i d.status false) := by
  have hns : ¬ maxSize < content.length := by omega
  simp only [submitDocument, hns, if_false] at h1
  split at h1
  next existing heq =>
    simp only [Prod.mk.injEq] at h1
    obtain ⟨hsd, hr⟩ := h1
    subst hsd
    refine ⟨existing.id, existing.status, false, hr.symm, existing, ?_, rfl, ?_⟩
    · exact List.mem_of_find?_eq_some heq
    · simp only [submitDocument, hns, if_false, heq]
  next heq =>
    simp only [Prod.mk.injEq] at h1
    obtain ⟨hsd, hr⟩ := h1
    refine ⟨sd0.nextDocId, "pending".data, true, hr.symm,
      { id := sd0.nextDocId, source := fn, contentHash := hashFn content,
        schemaVersion := sv, status := "pending".data,
        fileSizeBytes := content.length }, ?_, rfl, ?_⟩
    · rw [← hsd]
      simp
    · have hfind2 : (sd0.docs ++
          [({ id := sd0.nextDocId, source := fn, contentHash := hashFn content,
              schemaVersion := sv, status := "pending".data,
              fileSizeBytes := content.length } : DocRow)]).find?
            (fun d => d.contentHash = hashFn content ∧ d.schemaVersion = sv) =
          some { id := sd0.nextDocId, source := fn, contentHash := hashFn content,
                 schemaVersion := sv, status := "pending".data,
                 fileSizeBytes := content.length } := by
        rw [List.find?_append, heq]
        simp
      simp only [submitDocument, hns, if_false, ← hsd, hfind2]

/-- A concrete deterministic stand-in for the SHA-256 hasher. -/
def hashStub : List Nat → List Char := fun bs => (bs.map (fun b => Char.ofNat (48 + b % 10)))

def sdEmpty : SideDB := { docs := [], raws := [], outs := [], nextDocId := 0 }

/-- Witness for C9 at a concrete input: the 5 bytes `hello` submitted
twice into an empty store. -/
theorem c9_witness :
    ([104, 101, 108, 108, 111].length ≤ 100) ∧
    (∃ i st1 q1,
       (submitDocument hashStub 100 sdEmpty [104, 101, 108, 108, 111] "invoice_v1".data "hello.txt".data).2 =
         SubmitResult.ok i st1 q1 ∧
       ∃ d, d ∈ (submitDocument hashStub 100 sdEmpty [104, 101, 108, 108, 111] "invoice_v1".data "hello.txt".data).1.docs ∧
         d.id = i ∧
         submitDocument hashStub 100
             (submitDocument hashStub 100 sdEmpty [104, 101, 108, 108, 111] "invoice_v1".data "hello.txt".data).1
             [104, 101, 108, 108, 111] "invoice_v1".data "hello2.txt".data =
           ((submitDocument hashStub 100 sdEmpty [104, 101, 108, 108, 111] "invoice_v1".data "hello.txt".data).1,
            SubmitResult.ok i d.status false)) :=
  ⟨by norm_num,
   c9_dedup_by_hash hashStub 100 sdEmpty _ [104, 101, 108, 108, 111] "invoice_v1".data
     "hello.txt".data "hello2.txt".data _ (by norm_num) rfl⟩

end DocAgentLine
